import Mathlib

/-!
Shallow embedding of the background monitoring/alerting subsystem of
wydrox/vps-monitor.

Embedded source:
- `internal/stats/history.go` : `HistoryManager` (bounded per-container
  rolling buffer of resource samples, windowed averages).
- `internal/alerts` monitor code (`checkContainerStates`,
  `checkResourceThresholds`, `triggerAlert`, `isCriticalAlert`).

Modelling conventions:
- Go `float64` values are modelled as `ℚ` (the code only adds, divides and
  compares them).
- `time.Time` values are modelled as `ℤ` unix seconds (`time.Unix(ts, 0)`
  keeps the second count; `Before` is `<`, `Add(-d)` is subtraction).
- Go maps are modelled as association lists; iteration order of a snapshot
  is the order of the list given to the function.
- A Go slice-bounds panic (`ctr.ID[:12]` on a short id) is modelled by the
  whole check returning `none`.
- `time.Now()` inside `GetAverages` is passed explicitly as the `now`
  argument.
- `m.history.Add` and the webhook goroutine are modelled by appending the
  alert to the `history` resp. `dispatched` lists of the monitor state:
  the lists record, in order, exactly the alerts handed to the alert log
  and to the webhook sender.
-/

namespace VpsMonitor

/-! ### Data model: internal/stats/history.go and internal/models -/

/-- `models.ContainerStats` (the fields read by the alerting core). -/
structure ContainerStats where
  cpuPercent : ℚ
  memoryPercent : ℚ
  timestamp : ℤ
  deriving Repr, DecidableEq

/-- `stats.DataPoint`. -/
structure DataPoint where
  cpuPercent : ℚ
  memoryPercent : ℚ
  timestamp : ℤ
  deriving Repr, DecidableEq

/-- `stats.ContainerHistory` (the lock is dropped; `dataPoints` and
`maxSize` are kept). -/
structure ContainerHistory where
  dataPoints : List DataPoint
  maxSize : Nat
  deriving Repr, DecidableEq

/-- `stats.HistoryManager` (the lock is dropped; the `containers` map is an
association list). -/
structure HistoryManager where
  containers : List (String × ContainerHistory)
  maxSize : Nat
  deriving Repr, DecidableEq

/-- `stats.NewHistoryManager`: empty map, capacity 720. -/
def newHistoryManager : HistoryManager := ⟨[], 720⟩

/-- Go map read on the `containers` association list. -/
def lookupEntry : List (String × ContainerHistory) → String → Option ContainerHistory
  | [], _ => none
  | p :: m, cid => if p.1 == cid then some p.2 else lookupEntry m cid

/-- Go map write on the `containers` association list. -/
def setEntry : List (String × ContainerHistory) → String → ContainerHistory →
    List (String × ContainerHistory)
  | [], cid, h => [(cid, h)]
  | p :: m, cid, h => if p.1 == cid then (cid, h) :: m else p :: setEntry m cid h

/-- `hm.containers[containerID]`. -/
def lookupContainer (hm : HistoryManager) (cid : String) : Option ContainerHistory :=
  lookupEntry hm.containers cid

/-- `hm.containers[containerID] = h`. -/
def setContainer (hm : HistoryManager) (cid : String) (h : ContainerHistory) :
    HistoryManager :=
  { hm with containers := setEntry hm.containers cid h }

/-- `HistoryManager.RecordStats`: lazily create the container's buffer with
the manager's capacity, append the new data point, drop the oldest point
when the capacity is exceeded. -/
def recordStats (hm : HistoryManager) (cid : String) (stats : ContainerStats) :
    HistoryManager :=
  let hist := match lookupContainer hm cid with
    | some h => h
    | none => ⟨[], hm.maxSize⟩
  let dp : DataPoint := ⟨stats.cpuPercent, stats.memoryPercent, stats.timestamp⟩
  let dps := hist.dataPoints ++ [dp]
  let dps := if dps.length > hist.maxSize then dps.drop 1 else dps
  setContainer hm cid { hist with dataPoints := dps }

/-- `HistoryManager.GetAverages`: unknown container or empty buffer give
`hasData = false`; otherwise scan most-recent-first, stopping at the first
data point whose timestamp is strictly before `now - duration`, and return
the arithmetic means of the scanned points (`hasData = false` if none was
scanned). -/
def getAverages (hm : HistoryManager) (cid : String) (duration now : ℤ) :
    ℚ × ℚ × Bool :=
  match lookupContainer hm cid with
  | none => (0, 0, false)
  | some hist =>
    if hist.dataPoints = [] then (0, 0, false)
    else
      let cutoff := now - duration
      let included := hist.dataPoints.reverse.takeWhile
        (fun dp => decide (cutoff ≤ dp.timestamp))
      if included.length = 0 then (0, 0, false)
      else ((included.map (·.cpuPercent)).sum / included.length,
            (included.map (·.memoryPercent)).sum / included.length, true)

/-! ### Data model: the alert monitor (internal/alerts) -/

/-- The four `models.AlertType` constants used by the monitor. -/
inductive AlertType where
  | containerStopped
  | containerStarted
  | cpuThreshold
  | memoryThreshold
  deriving Repr, DecidableEq

/-- `models.Alert` (the fields the monitor fills that the claims depend on:
the random uuid, the human message and the unix timestamp are dropped;
`value`/`threshold` are the Go zero value `0` for lifecycle alerts). -/
structure Alert where
  type : AlertType
  containerID : String
  containerName : String
  host : String
  value : ℚ
  threshold : ℚ
  deriving Repr, DecidableEq

/-- `config.AlertConfig` (check interval in seconds). -/
structure AlertConfig where
  enabled : Bool
  webhookURL : String
  cpuThreshold : ℚ
  memoryThreshold : ℚ
  checkInterval : ℤ
  alertsFilter : String
  deriving Repr, DecidableEq

/-- `models.ContainerInfo` (the fields the monitor reads). -/
structure ContainerInfo where
  id : String
  names : List String
  state : String
  deriving Repr, DecidableEq

/-- The monitor's mutable state: the tracked `containerStates` map
(key `host:containerID`, value state string), plus the record of alerts
handed to `AlertHistory.Add` (`history`) and to the webhook sender
(`dispatched`), each in firing order. -/
@[ext]
structure MonitorState where
  containerStates : List (String × String)
  history : List Alert
  dispatched : List Alert
  deriving Repr, DecidableEq

/-- A fleet snapshot, as returned by `ListContainersAllHosts`: hosts in
iteration order, each with its containers in listing order. -/
abbrev Snapshot := List (String × List ContainerInfo)

/-- `fmt.Sprintf("%s:%s", hostName, ctr.ID)`. -/
def stateKey (host id : String) : String := host ++ ":" ++ id

/-- Go map read on the tracked-state map. -/
def lookupState : List (String × String) → String → Option String
  | [], _ => none
  | p :: m, k => if p.1 == k then some p.2 else lookupState m k

/-- Go map write on the tracked-state map. -/
def setState : List (String × String) → String → String → List (String × String)
  | [], k, v => [(k, v)]
  | p :: m, k, v => if p.1 == k then (k, v) :: m else p :: setState m k v

/-- Go `s[:n]` on a string: panics (`none`) when the string is shorter
than `n` (container ids are ASCII, so bytes and characters coincide). -/
def goSlice (s : String) (n : Nat) : Option String :=
  if s.length < n then none else some ⟨s.data.take n⟩

/-- `strings.TrimPrefix(s, "/")`: remove one leading slash if present. -/
def trimLeadingSlash (s : String) : String :=
  match s.data with
  | '/' :: rest => ⟨rest⟩
  | _ => s

/-- The container-name computation shared by both checks:
`containerName := ctr.ID[:12]` unconditionally (panic on a short id), then
overridden by `strings.TrimPrefix(ctr.Names[0], "/")` when the names list
is non-empty. -/
def containerNameOf (ctr : ContainerInfo) : Option String :=
  match goSlice ctr.id 12 with
  | none => none
  | some fallback =>
    match ctr.names with
    | [] => some fallback
    | n :: _ => some (trimLeadingSlash n)

/-- `isCriticalAlert`: only `AlertContainerStopped` is critical. -/
def isCriticalAlert (a : Alert) : Bool := a.type == AlertType.containerStopped

/-- `Monitor.triggerAlert`: always add the alert to the history; when a
webhook URL is configured, hand the alert to the webhook sender unless
the filter is `"critical"` and the alert is not critical. -/
def triggerAlert (cfg : AlertConfig) (st : MonitorState) (a : Alert) : MonitorState :=
  let st' := { st with history := st.history ++ [a] }
  if cfg.webhookURL ≠ "" then
    if cfg.alertsFilter = "critical" ∧ ¬ isCriticalAlert a then st'
    else { st' with dispatched := st'.dispatched ++ [a] }
  else st'

/-- One container of `Monitor.checkContainerStates`: compute the container
name (possible panic), fire `ContainerStopped` on a transition into
`exited`/`dead`, fire `ContainerStarted` on a transition from
`exited`/`dead`/`created` into `running`, stay silent on a first sighting
or any other transition, then record the new state. -/
def stepContainerState (cfg : AlertConfig) (host : String) (st : MonitorState)
    (ctr : ContainerInfo) : Option MonitorState :=
  match containerNameOf ctr with
  | none => none
  | some containerName =>
    let key := stateKey host ctr.id
    let st' :=
      match lookupState st.containerStates key with
      | some prevState =>
        if prevState ≠ ctr.state then
          if ctr.state = "exited" ∨ ctr.state = "dead" then
            triggerAlert cfg st
              ⟨AlertType.containerStopped, ctr.id, containerName, host, 0, 0⟩
          else if ctr.state = "running" ∧
              (prevState = "exited" ∨ prevState = "dead" ∨ prevState = "created") then
            triggerAlert cfg st
              ⟨AlertType.containerStarted, ctr.id, containerName, host, 0, 0⟩
          else st
        else st
      | none => st
    some { st' with containerStates := setState st'.containerStates key ctr.state }

/-- The inner loop of `checkContainerStates` over one host's containers. -/
def goContainers (cfg : AlertConfig) (host : String) :
    MonitorState → List ContainerInfo → Option MonitorState
  | st, [] => some st
  | st, c :: cs =>
    match stepContainerState cfg host st c with
    | none => none
    | some st' => goContainers cfg host st' cs

/-- The outer loop of `checkContainerStates` over the snapshot's hosts. -/
def goHosts (cfg : AlertConfig) :
    MonitorState → Snapshot → Option MonitorState
  | st, [] => some st
  | st, (h, cs) :: rest =>
    match goContainers cfg h st cs with
    | none => none
    | some st' => goHosts cfg st' rest

/-- The `currentContainers` key set of a snapshot. -/
def snapshotKeys (snap : Snapshot) : List String :=
  snap.flatMap (fun p => p.2.map (fun c => stateKey p.1 c.id))

/-- `Monitor.checkContainerStates` on an already-fetched snapshot: walk
every container, then delete tracked-state entries whose key is absent
from the snapshot. -/
def checkContainerStates (cfg : AlertConfig) (st : MonitorState) (snap : Snapshot) :
    Option MonitorState :=
  match goHosts cfg st snap with
  | none => none
  | some st' =>
    some { st' with containerStates :=
      st'.containerStates.filter (fun p => (snapshotKeys snap).contains p.1) }

/-- One container of `Monitor.checkResourceThresholds`: skip non-running
containers; skip a container whose stats fetch fails; otherwise compute the
container name (possible panic) and fire a `CPUThreshold` and/or
`MemoryThreshold` alert for each measured value strictly above its
threshold, carrying the measured value and the threshold. -/
def stepContainerRes (cfg : AlertConfig) (statsOf : String → String → Option ContainerStats)
    (host : String) (st : MonitorState) (ctr : ContainerInfo) : Option MonitorState :=
  if ctr.state ≠ "running" then some st
  else
    match statsOf host ctr.id with
    | none => some st
    | some stats =>
      match containerNameOf ctr with
      | none => none
      | some containerName =>
        let st₁ :=
          if stats.cpuPercent > cfg.cpuThreshold then
            triggerAlert cfg st
              ⟨AlertType.cpuThreshold, ctr.id, containerName, host,
                stats.cpuPercent, cfg.cpuThreshold⟩
          else st
        let st₂ :=
          if stats.memoryPercent > cfg.memoryThreshold then
            triggerAlert cfg st₁
              ⟨AlertType.memoryThreshold, ctr.id, containerName, host,
                stats.memoryPercent, cfg.memoryThreshold⟩
          else st₁
        some st₂

/-- The inner loop of `checkResourceThresholds` over one host's containers. -/
def goContainersRes (cfg : AlertConfig) (statsOf : String → String → Option ContainerStats)
    (host : String) : MonitorState → List ContainerInfo → Option MonitorState
  | st, [] => some st
  | st, c :: cs =>
    match stepContainerRes cfg statsOf host st c with
    | none => none
    | some st' => goContainersRes cfg statsOf host st' cs

/-- The outer loop of `checkResourceThresholds` over the snapshot's hosts. -/
def goHostsRes (cfg : AlertConfig) (statsOf : String → String → Option ContainerStats) :
    MonitorState → Snapshot → Option MonitorState
  | st, [] => some st
  | st, (h, cs) :: rest =>
    match goContainersRes cfg statsOf h st cs with
    | none => none
    | some st' => goHostsRes cfg statsOf st' rest

/-- `Monitor.checkResourceThresholds` on an already-fetched snapshot, with
`GetContainerStatsOnce` abstracted as the oracle `statsOf` (`none` models a
fetch error). -/
def checkResourceThresholds (cfg : AlertConfig)
    (statsOf : String → String → Option ContainerStats)
    (st : MonitorState) (snap : Snapshot) : Option MonitorState :=
  goHostsRes cfg statsOf st snap

/-! ### Basic lemmas about the map helpers and `triggerAlert` -/

theorem lookupState_setState_self (m : List (String × String)) (k v : String) :
    lookupState (setState m k v) k = some v := by
  induction m with
  | nil => simp [setState, lookupState]
  | cons p m ih =>
    by_cases h : p.1 = k
    · simp [setState, lookupState, h]
    · simp [setState, lookupState, h, ih]

theorem lookupState_setState_ne (m : List (String × String)) (k k' v : String)
    (h : k' ≠ k) : lookupState (setState m k v) k' = lookupState m k' := by
  induction m with
  | nil => simp [setState, lookupState, Ne.symm h]
  | cons p m ih =>
    by_cases hp : p.1 = k
    · simp [setState, lookupState, hp, Ne.symm h]
    · by_cases hp' : p.1 = k'
      · simp [setState, lookupState, hp, hp', h]
      · simp [setState, lookupState, hp, hp', ih]

theorem triggerAlert_history (cfg : AlertConfig) (st : MonitorState) (a : Alert) :
    (triggerAlert cfg st a).history = st.history ++ [a] := by
  simp only [triggerAlert]
  split <;> first | rfl | (split <;> rfl)

theorem triggerAlert_containerStates (cfg : AlertConfig) (st : MonitorState) (a : Alert) :
    (triggerAlert cfg st a).containerStates = st.containerStates := by
  simp only [triggerAlert]
  split <;> first | rfl | (split <;> rfl)

theorem triggerAlert_dispatched_critical (cfg : AlertConfig) (st : MonitorState) (a : Alert)
    (hurl : cfg.webhookURL ≠ "") (hflt : cfg.alertsFilter = "critical") :
    (triggerAlert cfg st a).dispatched =
      if a.type = AlertType.containerStopped then st.dispatched ++ [a]
      else st.dispatched := by
  by_cases h : a.type = AlertType.containerStopped <;>
    simp [triggerAlert, isCriticalAlert, hurl, hflt, h]

/-! ### Claim C7 -/

/-- C7: with a webhook URL configured and filter mode critical-only, only
`ContainerStopped` alerts are handed to the webhook sender (a
`CPUThreshold` alert is recorded in the history but never dispatched,
while a `ContainerStopped` alert is dispatched), and every alert of every
kind is recorded in the history regardless of the filter mode and of
whether a webhook is configured. -/
theorem C7_notification_filtering :
    (∀ cfg st a, (triggerAlert cfg st a).history = st.history ++ [a]) ∧
    (∀ cfg st a, cfg.webhookURL ≠ "" → cfg.alertsFilter = "critical" →
      (triggerAlert cfg st a).dispatched =
        if a.type = AlertType.containerStopped then st.dispatched ++ [a]
        else st.dispatched) :=
  ⟨triggerAlert_history, fun cfg st a h1 h2 =>
    triggerAlert_dispatched_critical cfg st a h1 h2⟩

/-- Witness for C7: a concrete critical-only configuration, with a
`CPUThreshold` alert recorded but not dispatched and a `ContainerStopped`
alert recorded and dispatched. -/
theorem C7_notification_filtering_witness :
    (triggerAlert ⟨true, "http://hook", 80, 90, 30, "critical"⟩ ⟨[], [], []⟩
        ⟨AlertType.cpuThreshold, "c1", "web", "local", 85, 80⟩).history =
      [⟨AlertType.cpuThreshold, "c1", "web", "local", 85, 80⟩] ∧
    (triggerAlert ⟨true, "http://hook", 80, 90, 30, "critical"⟩ ⟨[], [], []⟩
        ⟨AlertType.cpuThreshold, "c1", "web", "local", 85, 80⟩).dispatched = [] ∧
    (triggerAlert ⟨true, "http://hook", 80, 90, 30, "critical"⟩ ⟨[], [], []⟩
        ⟨AlertType.containerStopped, "c1", "web", "local", 0, 0⟩).dispatched =
      [⟨AlertType.containerStopped, "c1", "web", "local", 0, 0⟩] := by
  refine ⟨C7_notification_filtering.1 _ _ _, ?_, ?_⟩
  · have h := C7_notification_filtering.2 ⟨true, "http://hook", 80, 90, 30, "critical"⟩
      ⟨[], [], []⟩ ⟨AlertType.cpuThreshold, "c1", "web", "local", 85, 80⟩
      (by decide) rfl
    simpa using h
  · have h := C7_notification_filtering.2 ⟨true, "http://hook", 80, 90, 30, "critical"⟩
      ⟨[], [], []⟩ ⟨AlertType.containerStopped, "c1", "web", "local", 0, 0⟩
      (by decide) rfl
    simpa using h

/-! ### Claim C4 -/

/-- The C4 scenario samples: one sample at each minute mark `m = 0..11`,
with `cpuPercent = 10 * (m + 1)` and `memoryPercent = 0`. -/
def c4Samples : List ContainerStats :=
  [⟨10, 0, 0⟩, ⟨20, 0, 60⟩, ⟨30, 0, 120⟩, ⟨40, 0, 180⟩, ⟨50, 0, 240⟩, ⟨60, 0, 300⟩,
   ⟨70, 0, 360⟩, ⟨80, 0, 420⟩, ⟨90, 0, 480⟩, ⟨100, 0, 540⟩, ⟨110, 0, 600⟩, ⟨120, 0, 660⟩]

/-- The history manager after recording the C4 scenario samples for
entity `web1`, in order. -/
def c4Manager : HistoryManager :=
  c4Samples.foldl (fun hm s => recordStats hm "web1" s) newHistoryManager

/-- Counterexample to C4 as stated: the mean of the minute-7..11 samples
is `100`, but `GetAverages` with a 5-minute window evaluated at the
minute-11 mark does not return it — the scan stops only at a timestamp
strictly before `now - window`, so the minute-6 sample (exactly
window-old) is also included. -/
theorem C4_window_counterexample :
    ((80 : ℚ) + 90 + 100 + 110 + 120) / 5 = 100 ∧
    getAverages c4Manager "web1" 300 660 ≠ (100, 0, true) := by
  constructor
  · norm_num
  · norm_num [c4Manager, c4Samples, newHistoryManager, recordStats, lookupContainer,
      lookupEntry, setContainer, setEntry, getAverages, List.cons_ne_nil, List.takeWhile]

/-- C4 (amended): with the C4 scenario samples, `GetAverages` with a
5-minute window evaluated at the minute-11 mark returns the arithmetic
mean of the samples at minutes 6 through 11 inclusive (the sample exactly
at `now - window` is included), with `hasData = true`. -/
theorem C4_window_boundary_amended :
    getAverages c4Manager "web1" 300 660 =
      (((70 : ℚ) + 80 + 90 + 100 + 110 + 120) / 6, 0, true) := by
  norm_num [c4Manager, c4Samples, newHistoryManager, recordStats, lookupContainer,
    lookupEntry, setContainer, setEntry, getAverages, List.cons_ne_nil, List.takeWhile]

/-! ### Lemmas about the container-name computation -/

theorem containerNameOf_isSome_iff (ctr : ContainerInfo) :
    (containerNameOf ctr).isSome ↔ 12 ≤ ctr.id.length := by
  by_cases h : ctr.id.length < 12
  · cases hn : ctr.names <;>
      simp [containerNameOf, goSlice, hn, h, Nat.not_le.mpr h]
  · cases hn : ctr.names <;>
      simp [containerNameOf, goSlice, hn, h, Nat.not_lt.mp h]

theorem containerNameOf_of_length (ctr : ContainerInfo) (h : 12 ≤ ctr.id.length) :
    ∃ nm, containerNameOf ctr = some nm := by
  have := (containerNameOf_isSome_iff ctr).mpr h
  exact Option.isSome_iff_exists.mp this

/-! ### Lemmas about `checkResourceThresholds` -/

theorem stepContainerRes_running (cfg : AlertConfig)
    (statsOf : String → String → Option ContainerStats) (host : String)
    (st : MonitorState) (ctr : ContainerInfo) (stats : ContainerStats) (nm : String)
    (hrun : ctr.state = "running") (hst : statsOf host ctr.id = some stats)
    (hnm : containerNameOf ctr = some nm) :
    stepContainerRes cfg statsOf host st ctr =
      some (let st₁ :=
          if stats.cpuPercent > cfg.cpuThreshold then
            triggerAlert cfg st
              ⟨AlertType.cpuThreshold, ctr.id, nm, host, stats.cpuPercent, cfg.cpuThreshold⟩
          else st
        if stats.memoryPercent > cfg.memoryThreshold then
          triggerAlert cfg st₁
            ⟨AlertType.memoryThreshold, ctr.id, nm, host, stats.memoryPercent, cfg.memoryThreshold⟩
        else st₁) := by
  simp [stepContainerRes, hrun, hst, hnm]

theorem checkResourceThresholds_singleton (cfg : AlertConfig)
    (statsOf : String → String → Option ContainerStats) (h : String)
    (c : ContainerInfo) (st : MonitorState) :
    checkResourceThresholds cfg statsOf st [(h, [c])] =
      stepContainerRes cfg statsOf h st c := by
  simp only [checkResourceThresholds, goHostsRes, goContainersRes]
  cases stepContainerRes cfg statsOf h st c <;> simp [goContainersRes, goHostsRes]

/-- The alerts fired for one running container whose stats fetch returned
`stats`, in firing order. -/
def resAlerts (cfg : AlertConfig) (host id nm : String) (stats : ContainerStats) :
    List Alert :=
  (if stats.cpuPercent > cfg.cpuThreshold then
    [⟨AlertType.cpuThreshold, id, nm, host, stats.cpuPercent, cfg.cpuThreshold⟩] else []) ++
  (if stats.memoryPercent > cfg.memoryThreshold then
    [⟨AlertType.memoryThreshold, id, nm, host, stats.memoryPercent, cfg.memoryThreshold⟩]
   else [])

theorem checkResourceThresholds_single_running (cfg : AlertConfig)
    (statsOf : String → String → Option ContainerStats) (host id : String)
    (names : List String) (stats : ContainerStats) (nm : String)
    (hst : statsOf host id = some stats)
    (hnm : containerNameOf ⟨id, names, "running"⟩ = some nm) (st : MonitorState) :
    ∃ st', checkResourceThresholds cfg statsOf st [(host, [⟨id, names, "running"⟩])] =
        some st' ∧
      st'.history = st.history ++ resAlerts cfg host id nm stats := by
  rw [checkResourceThresholds_singleton,
    stepContainerRes_running cfg statsOf host st ⟨id, names, "running"⟩ stats nm rfl hst hnm]
  refine ⟨_, rfl, ?_⟩
  by_cases hc : stats.cpuPercent > cfg.cpuThreshold <;>
    by_cases hme : stats.memoryPercent > cfg.memoryThreshold <;>
      simp [resAlerts, hc, hme, triggerAlert_history]

/-! ### Claim C2 -/

/-- C2: for a running container whose stats fetch succeeds, a
`CPUThreshold` (resp. `MemoryThreshold`) alert is recorded exactly when
the measured value strictly exceeds the configured threshold, carrying the
measured value and the threshold; and over two consecutive cycles with the
same measurements a container above the CPU threshold fires the alert
afresh on each cycle (two occurrences in the history, no deduplication). -/
theorem C2_threshold_evaluation :
    (∀ (cfg : AlertConfig) (statsOf : String → String → Option ContainerStats)
        (host id : String) (names : List String) (stats : ContainerStats)
        (st : MonitorState), 12 ≤ id.length → statsOf host id = some stats →
      ∃ nm st', containerNameOf ⟨id, names, "running"⟩ = some nm ∧
        checkResourceThresholds cfg statsOf st [(host, [⟨id, names, "running"⟩])] =
          some st' ∧
        st'.history = st.history ++
          (if stats.cpuPercent > cfg.cpuThreshold then
            [⟨AlertType.cpuThreshold, id, nm, host, stats.cpuPercent, cfg.cpuThreshold⟩]
           else []) ++
          (if stats.memoryPercent > cfg.memoryThreshold then
            [⟨AlertType.memoryThreshold, id, nm, host, stats.memoryPercent,
              cfg.memoryThreshold⟩]
           else [])) ∧
    (∀ (cfg : AlertConfig) (statsOf : String → String → Option ContainerStats)
        (host id : String) (names : List String) (stats : ContainerStats)
        (st : MonitorState), 12 ≤ id.length → statsOf host id = some stats →
      stats.cpuPercent > cfg.cpuThreshold → ¬ stats.memoryPercent > cfg.memoryThreshold →
      ∃ nm, containerNameOf ⟨id, names, "running"⟩ = some nm ∧
        ((checkResourceThresholds cfg statsOf st [(host, [⟨id, names, "running"⟩])]).bind
          (fun s₁ => checkResourceThresholds cfg statsOf s₁
            [(host, [⟨id, names, "running"⟩])])).map (·.history) =
        some (st.history ++
          [⟨AlertType.cpuThreshold, id, nm, host, stats.cpuPercent, cfg.cpuThreshold⟩,
           ⟨AlertType.cpuThreshold, id, nm, host, stats.cpuPercent, cfg.cpuThreshold⟩])) := by
  constructor
  · intro cfg statsOf host id names stats st hlen hst
    obtain ⟨nm, hnm⟩ := containerNameOf_of_length ⟨id, names, "running"⟩ hlen
    obtain ⟨st', hck, hh⟩ :=
      checkResourceThresholds_single_running cfg statsOf host id names stats nm hst hnm st
    refine ⟨nm, st', hnm, hck, ?_⟩
    rw [hh]
    simp [resAlerts, List.append_assoc]
  · intro cfg statsOf host id names stats st hlen hst hcpu hmem
    obtain ⟨nm, hnm⟩ := containerNameOf_of_length ⟨id, names, "running"⟩ hlen
    obtain ⟨st₁, hck₁, hh₁⟩ :=
      checkResourceThresholds_single_running cfg statsOf host id names stats nm hst hnm st
    obtain ⟨st₂, hck₂, hh₂⟩ :=
      checkResourceThresholds_single_running cfg statsOf host id names stats nm hst hnm st₁
    refine ⟨nm, hnm, ?_⟩
    rw [hck₁]
    show (checkResourceThresholds cfg statsOf st₁
      [(host, [⟨id, names, "running"⟩])]).map (·.history) = _
    rw [hck₂]
    show some st₂.history = _
    rw [hh₂, hh₁]
    simp [resAlerts, hcpu, hmem]

/-- Witness for C2: cpu threshold 80, a running container measuring
cpu 85 and memory 10 on both cycles fires the same `CPUThreshold` alert
once per cycle. -/
theorem C2_threshold_evaluation_witness :
    ((checkResourceThresholds ⟨true, "", 80, 90, 30, "all"⟩
        (fun _ _ => some ⟨85, 10, 0⟩) ⟨[], [], []⟩
        [("local", [⟨"abcdef123456", ["/web"], "running"⟩])]).bind
      (fun s₁ => checkResourceThresholds ⟨true, "", 80, 90, 30, "all"⟩
        (fun _ _ => some ⟨85, 10, 0⟩) s₁
        [("local", [⟨"abcdef123456", ["/web"], "running"⟩])])).map (·.history) =
    some [⟨AlertType.cpuThreshold, "abcdef123456", "web", "local", 85, 80⟩,
          ⟨AlertType.cpuThreshold, "abcdef123456", "web", "local", 85, 80⟩] := by
  obtain ⟨nm, hnm, h⟩ := C2_threshold_evaluation.2 ⟨true, "", 80, 90, 30, "all"⟩
    (fun _ _ => some ⟨85, 10, 0⟩) "local" "abcdef123456" ["/web"] ⟨85, 10, 0⟩
    ⟨[], [], []⟩ (by decide) rfl (by norm_num) (by norm_num)
  have hweb : containerNameOf ⟨"abcdef123456", ["/web"], "running"⟩ = some "web" := by
    decide
  rw [hweb] at hnm
  injection hnm with hnm'
  rw [← hnm'] at h
  simpa using h

/-! ### Claim C8 -/

theorem goContainersRes_skip (cfg : AlertConfig)
    (statsOf : String → String → Option ContainerStats) (host : String)
    (c : ContainerInfo) (hrun : c.state = "running")
    (hfail : statsOf host c.id = none) :
    ∀ (cs₁ : List ContainerInfo) (st : MonitorState) (cs₂ : List ContainerInfo),
      goContainersRes cfg statsOf host st (cs₁ ++ c :: cs₂) =
        goContainersRes cfg statsOf host st (cs₁ ++ cs₂) := by
  intro cs₁
  induction cs₁ with
  | nil =>
    intro st cs₂
    simp [goContainersRes, stepContainerRes, hrun, hfail]
  | cons d cs₁ ih =>
    intro st cs₂
    simp only [List.cons_append, goContainersRes]
    cases stepContainerRes cfg statsOf host st d <;> simp [ih]

/-- C8: a per-container stats-fetch failure during threshold evaluation
skips exactly that container — the check over a snapshot containing the
failing container equals the check over the same snapshot with that
container removed, so every other container (before or after it, and on
later hosts) is still evaluated. -/
theorem C8_fetch_failure_isolation :
    ∀ (cfg : AlertConfig) (statsOf : String → String → Option ContainerStats)
      (st : MonitorState) (host : String) (cs₁ : List ContainerInfo)
      (c : ContainerInfo) (cs₂ : List ContainerInfo) (rest : Snapshot),
      c.state = "running" → statsOf host c.id = none →
      checkResourceThresholds cfg statsOf st ((host, cs₁ ++ c :: cs₂) :: rest) =
        checkResourceThresholds cfg statsOf st ((host, cs₁ ++ cs₂) :: rest) := by
  intro cfg statsOf st host cs₁ c cs₂ rest hrun hfail
  simp only [checkResourceThresholds, goHostsRes]
  rw [goContainersRes_skip cfg statsOf host c hrun hfail cs₁ st cs₂]

/-- Witness for C8: a failing fetch on the first container leaves the
second container's threshold alert intact. -/
theorem C8_fetch_failure_isolation_witness :
    checkResourceThresholds ⟨true, "", 80, 90, 30, "all"⟩
        (fun _ id => if id = "cccccccccccc" then none else some ⟨85, 10, 0⟩)
        ⟨[], [], []⟩
        [("local", [⟨"cccccccccccc", [], "running"⟩, ⟨"dddddddddddd", [], "running"⟩])] =
      checkResourceThresholds ⟨true, "", 80, 90, 30, "all"⟩
        (fun _ id => if id = "cccccccccccc" then none else some ⟨85, 10, 0⟩)
        ⟨[], [], []⟩
        [("local", [⟨"dddddddddddd", [], "running"⟩])] := by
  have h := C8_fetch_failure_isolation ⟨true, "", 80, 90, 30, "all"⟩
    (fun _ id => if id = "cccccccccccc" then none else some ⟨85, 10, 0⟩)
    ⟨[], [], []⟩ "local" [] ⟨"cccccccccccc", [], "running"⟩
    [⟨"dddddddddddd", [], "running"⟩] [] rfl (by simp)
  simpa using h

/-! ### Claim C10 -/

theorem stepContainerState_isSome_iff (cfg : AlertConfig) (host : String)
    (st : MonitorState) (c : ContainerInfo) :
    (stepContainerState cfg host st c).isSome ↔ 12 ≤ c.id.length := by
  rw [← containerNameOf_isSome_iff]
  cases h : containerNameOf c <;> simp [stepContainerState, h]

theorem goContainers_isSome (cfg : AlertConfig) (host : String) :
    ∀ (cs : List ContainerInfo) (st : MonitorState),
      (∀ c ∈ cs, 12 ≤ c.id.length) → (goContainers cfg host st cs).isSome := by
  intro cs
  induction cs with
  | nil => intro st _; simp [goContainers]
  | cons c cs ih =>
    intro st hlen
    have hc := (stepContainerState_isSome_iff cfg host st c).mpr (hlen c (by simp))
    obtain ⟨st', hst'⟩ := Option.isSome_iff_exists.mp hc
    simp only [goContainers, hst']
    exact ih st' (fun d hd => hlen d (by simp [hd]))

theorem goContainers_isSome_rev (cfg : AlertConfig) (host : String) :
    ∀ (cs : List ContainerInfo) (st : MonitorState),
      (goContainers cfg host st cs).isSome → ∀ c ∈ cs, 12 ≤ c.id.length := by
  intro cs
  induction cs with
  | nil => simp
  | cons c cs ih =>
    intro st hsome d hd
    rcases List.mem_cons.mp hd with hd | hd
    · by_cases hlen : 12 ≤ c.id.length
      · exact hd ▸ hlen
      · have : stepContainerState cfg host st c = none := by
          have := (stepContainerState_isSome_iff cfg host st c).not.mpr hlen
          simpa [Option.isSome_iff_exists] using
            Option.not_isSome_iff_eq_none.mp this
        rw [goContainers] at hsome
        simp [this] at hsome
    · cases hst : stepContainerState cfg host st c with
      | none => rw [goContainers] at hsome; simp [hst] at hsome
      | some st' =>
        rw [goContainers] at hsome
        simp only [hst] at hsome
        exact ih st' hsome d hd

theorem stepContainerRes_isSome (cfg : AlertConfig)
    (statsOf : String → String → Option ContainerStats) (host : String)
    (st : MonitorState) (c : ContainerInfo) (hlen : 12 ≤ c.id.length) :
    (stepContainerRes cfg statsOf host st c).isSome := by
  obtain ⟨nm, hnm⟩ := containerNameOf_of_length c hlen
  by_cases hrun : c.state = "running"
  · cases hst : statsOf host c.id <;> simp [stepContainerRes, hrun, hst, hnm]
  · simp [stepContainerRes, hrun]

theorem goContainersRes_isSome (cfg : AlertConfig)
    (statsOf : String → String → Option ContainerStats) (host : String) :
    ∀ (cs : List ContainerInfo) (st : MonitorState),
      (∀ c ∈ cs, 12 ≤ c.id.length) → (goContainersRes cfg statsOf host st cs).isSome := by
  intro cs
  induction cs with
  | nil => intro st _; simp [goContainersRes]
  | cons c cs ih =>
    intro st hlen
    have hc := stepContainerRes_isSome cfg statsOf host st c (hlen c (by simp))
    obtain ⟨st', hst'⟩ := Option.isSome_iff_exists.mp hc
    simp only [goContainersRes, hst']
    exact ih st' (fun d hd => hlen d (by simp [hd]))

theorem goHosts_isSome (cfg : AlertConfig) :
    ∀ (snap : Snapshot) (st : MonitorState),
      (∀ p ∈ snap, ∀ c ∈ p.2, 12 ≤ c.id.length) → (goHosts cfg st snap).isSome := by
  intro snap
  induction snap with
  | nil => intro st _; simp [goHosts]
  | cons p rest ih =>
    intro st hlen
    obtain ⟨h, cs⟩ := p
    have hc := goContainers_isSome cfg h cs st (fun c hc => hlen (h, cs) (by simp) c hc)
    obtain ⟨st', hst'⟩ := Option.isSome_iff_exists.mp hc
    simp only [goHosts, hst']
    exact ih st' (fun q hq c hc => hlen q (by simp [hq]) c hc)

theorem goHosts_isSome_rev (cfg : AlertConfig) :
    ∀ (snap : Snapshot) (st : MonitorState),
      (goHosts cfg st snap).isSome → ∀ p ∈ snap, ∀ c ∈ p.2, 12 ≤ c.id.length := by
  intro snap
  induction snap with
  | nil => simp
  | cons q rest ih =>
    intro st hsome p hp c hc
    obtain ⟨h, cs⟩ := q
    cases hgo : goContainers cfg h st cs with
    | none => rw [goHosts] at hsome; simp [hgo] at hsome
    | some st' =>
      rw [goHosts] at hsome
      simp only [hgo] at hsome
      rcases List.mem_cons.mp hp with hp | hp
      · subst hp
        exact goContainers_isSome_rev cfg h cs st (by simp [hgo]) c hc
      · exact ih st' hsome p hp c hc

theorem goHostsRes_isSome (cfg : AlertConfig)
    (statsOf : String → String → Option ContainerStats) :
    ∀ (snap : Snapshot) (st : MonitorState),
      (∀ p ∈ snap, ∀ c ∈ p.2, 12 ≤ c.id.length) →
      (goHostsRes cfg statsOf st snap).isSome := by
  intro snap
  induction snap with
  | nil => intro st _; simp [goHostsRes]
  | cons p rest ih =>
    intro st hlen
    obtain ⟨h, cs⟩ := p
    have hc := goContainersRes_isSome cfg statsOf h cs st
      (fun c hc => hlen (h, cs) (by simp) c hc)
    obtain ⟨st', hst'⟩ := Option.isSome_iff_exists.mp hc
    simp only [goHostsRes, hst']
    exact ih st' (fun q hq c hc => hlen q (by simp [hq]) c hc)

/-- C10: the first-12-characters fallback name is computed before the
names list is inspected, so both checks complete without a slice panic
when every container id in the snapshot has length at least 12; and
conversely, `checkContainerStates` completes only if every container id
in the snapshot has length at least 12 (a single shorter id panics). -/
theorem C10_short_id_precondition :
    (∀ (cfg : AlertConfig) (statsOf : String → String → Option ContainerStats)
        (st : MonitorState) (snap : Snapshot),
      (∀ p ∈ snap, ∀ c ∈ p.2, 12 ≤ c.id.length) →
      (checkContainerStates cfg st snap).isSome ∧
      (checkResourceThresholds cfg statsOf st snap).isSome) ∧
    (∀ (cfg : AlertConfig) (st : MonitorState) (snap : Snapshot),
      (checkContainerStates cfg st snap).isSome →
      ∀ p ∈ snap, ∀ c ∈ p.2, 12 ≤ c.id.length) := by
  constructor
  · intro cfg statsOf st snap hlen
    constructor
    · obtain ⟨st', hst'⟩ := Option.isSome_iff_exists.mp (goHosts_isSome cfg snap st hlen)
      simp [checkContainerStates, hst']
    · exact goHostsRes_isSome cfg statsOf snap st hlen
  · intro cfg st snap hsome
    apply goHosts_isSome_rev cfg snap st
    cases hgo : goHosts cfg st snap with
    | none => simp [checkContainerStates, hgo] at hsome
    | some st' => simp

/-- Witness for C10: both checks succeed on a 12-character id, and
`checkContainerStates` indeed succeeds there. -/
theorem C10_short_id_precondition_witness :
    (checkContainerStates ⟨true, "", 80, 90, 30, "all"⟩ ⟨[], [], []⟩
      [("local", [⟨"abcdef123456", [], "running"⟩])]).isSome ∧
    (checkResourceThresholds ⟨true, "", 80, 90, 30, "all"⟩ (fun _ _ => none)
      ⟨[], [], []⟩ [("local", [⟨"abcdef123456", [], "running"⟩])]).isSome ∧
    12 ≤ ("abcdef123456" : String).length := by
  have h := C10_short_id_precondition.1 ⟨true, "", 80, 90, 30, "all"⟩ (fun _ _ => none)
    ⟨[], [], []⟩ [("local", [⟨"abcdef123456", [], "running"⟩])]
    (by
      intro p hp c hc
      have hp' : p = ("local", [(⟨"abcdef123456", [], "running"⟩ : ContainerInfo)]) := by
        simpa using hp
      subst hp'
      have hc' : c = (⟨"abcdef123456", [], "running"⟩ : ContainerInfo) := by
        simpa using hc
      subst hc'
      decide)
  have h2 := C10_short_id_precondition.2 ⟨true, "", 80, 90, 30, "all"⟩ ⟨[], [], []⟩
    [("local", [⟨"abcdef123456", [], "running"⟩])] h.1
    ("local", [⟨"abcdef123456", [], "running"⟩]) (by simp)
    ⟨"abcdef123456", [], "running"⟩ (by simp)
  exact ⟨h.1, h.2, h2⟩

/-! ### Lemmas about `checkContainerStates` -/

theorem triggerAlert_setStates (cfg : AlertConfig) (st : MonitorState) (a : Alert)
    (x : List (String × String)) :
    triggerAlert cfg { st with containerStates := x } a =
      { triggerAlert cfg st a with containerStates := x } := by
  simp only [triggerAlert]
  split <;> first | rfl | (split <;> rfl)

theorem stepContainerState_unseen (cfg : AlertConfig) (host : String)
    (st : MonitorState) (c : ContainerInfo) (nm : String)
    (hnm : containerNameOf c = some nm)
    (hfresh : lookupState st.containerStates (stateKey host c.id) = none) :
    stepContainerState cfg host st c =
      some { st with
        containerStates := setState st.containerStates (stateKey host c.id) c.state } := by
  simp [stepContainerState, hnm, hfresh]

theorem stepContainerState_stopped (cfg : AlertConfig) (host : String)
    (st : MonitorState) (c : ContainerInfo) (nm prev : String)
    (hnm : containerNameOf c = some nm)
    (hprev : lookupState st.containerStates (stateKey host c.id) = some prev)
    (hne : prev ≠ c.state) (hstop : c.state = "exited" ∨ c.state = "dead") :
    stepContainerState cfg host st c =
      some { triggerAlert cfg st ⟨AlertType.containerStopped, c.id, nm, host, 0, 0⟩ with
        containerStates := setState st.containerStates (stateKey host c.id) c.state } := by
  have hts := triggerAlert_containerStates cfg st
    ⟨AlertType.containerStopped, c.id, nm, host, 0, 0⟩
  simp [stepContainerState, hnm, hprev, hne, hstop, hts]

theorem stepContainerState_started (cfg : AlertConfig) (host : String)
    (st : MonitorState) (c : ContainerInfo) (nm prev : String)
    (hnm : containerNameOf c = some nm)
    (hprev : lookupState st.containerStates (stateKey host c.id) = some prev)
    (hne : prev ≠ c.state) (hrun : c.state = "running")
    (hfrom : prev = "exited" ∨ prev = "dead" ∨ prev = "created") :
    stepContainerState cfg host st c =
      some { triggerAlert cfg st ⟨AlertType.containerStarted, c.id, nm, host, 0, 0⟩ with
        containerStates := setState st.containerStates (stateKey host c.id) c.state } := by
  have hts := triggerAlert_containerStates cfg st
    ⟨AlertType.containerStarted, c.id, nm, host, 0, 0⟩
  have hnstop : ¬ (c.state = "exited" ∨ c.state = "dead") := by
    rw [hrun]; decide
  have hne' : ¬ prev = "running" := by rw [← hrun]; exact hne
  simp [stepContainerState, hnm, hprev, hne, hne', hnstop, hrun, hfrom, hts]

theorem checkContainerStates_singleton (cfg : AlertConfig) (h : String)
    (c : ContainerInfo) (st : MonitorState) :
    checkContainerStates cfg st [(h, [c])] =
      (stepContainerState cfg h st c).map (fun st' =>
        { st' with containerStates :=
          st'.containerStates.filter (fun p => p.1 == stateKey h c.id) }) := by
  simp only [checkContainerStates, goHosts, goContainers, snapshotKeys]
  cases hst : stepContainerState cfg h st c with
  | none => rfl
  | some st' =>
    simp only [goContainers, goHosts, Option.map]
    congr 1
    refine MonitorState.ext ?_ rfl rfl
    apply List.filter_congr
    intro p _
    simp only [List.contains, List.elem, snapshotKeys]
    cases p.1 == stateKey h c.id <;> rfl

/-! ### Claim C1 -/

theorem goContainers_fresh (cfg : AlertConfig) (host : String) :
    ∀ (cs : List ContainerInfo) (st st' : MonitorState),
      (∀ c ∈ cs, lookupState st.containerStates (stateKey host c.id) = none) →
      (cs.map (fun c => stateKey host c.id)).Nodup →
      goContainers cfg host st cs = some st' →
      st'.history = st.history ∧ st'.dispatched = st.dispatched ∧
      (∀ k, k ∉ cs.map (fun c => stateKey host c.id) →
        lookupState st'.containerStates k = lookupState st.containerStates k) := by
  intro cs
  induction cs with
  | nil =>
    intro st st' _ _ hgo
    simp only [goContainers] at hgo
    cases hgo
    exact ⟨rfl, rfl, fun _ _ => rfl⟩
  | cons c cs ih =>
    intro st st' hfresh hnodup hgo
    rw [goContainers] at hgo
    cases hstep : stepContainerState cfg host st c with
    | none => rw [hstep] at hgo; cases hgo
    | some st₁ =>
      rw [hstep] at hgo
      have hlen : 12 ≤ c.id.length := by
        have := (stepContainerState_isSome_iff cfg host st c).mp (by simp [hstep])
        exact this
      obtain ⟨nm, hnm⟩ := containerNameOf_of_length c hlen
      rw [stepContainerState_unseen cfg host st c nm hnm
        (hfresh c (by simp))] at hstep
      cases hstep
      rw [List.map_cons, List.nodup_cons] at hnodup
      obtain ⟨hhead, hnodup'⟩ := hnodup
      have hfresh' : ∀ d ∈ cs,
          lookupState (setState st.containerStates (stateKey host c.id) c.state)
            (stateKey host d.id) = none := by
        intro d hd
        have hne : stateKey host d.id ≠ stateKey host c.id := by
          intro hcontra
          exact hhead (by
            rw [← hcontra]
            exact List.mem_map.mpr ⟨d, hd, rfl⟩)
        rw [lookupState_setState_ne _ _ _ _ hne]
        exact hfresh d (by simp [hd])
      obtain ⟨hh, hdisp, hlook⟩ := ih _ st' hfresh' hnodup' hgo
      refine ⟨hh, hdisp, ?_⟩
      intro k hk
      have hk1 : k ≠ stateKey host c.id := by
        intro hcontra; exact hk (by simp [hcontra])
      have hk2 : k ∉ cs.map (fun c => stateKey host c.id) := by
        intro hcontra; exact hk (by simp [hcontra])
      rw [hlook k hk2]
      exact lookupState_setState_ne _ _ _ _ hk1

theorem goHosts_fresh (cfg : AlertConfig) :
    ∀ (snap : Snapshot) (st st' : MonitorState),
      (∀ k ∈ snapshotKeys snap, lookupState st.containerStates k = none) →
      (snapshotKeys snap).Nodup →
      goHosts cfg st snap = some st' →
      st'.history = st.history ∧ st'.dispatched = st.dispatched := by
  intro snap
  induction snap with
  | nil =>
    intro st st' _ _ hgo
    simp only [goHosts] at hgo
    cases hgo
    exact ⟨rfl, rfl⟩
  | cons q rest ih =>
    intro st st' hfresh hnodup hgo
    obtain ⟨h, cs⟩ := q
    rw [goHosts] at hgo
    cases hq : goContainers cfg h st cs with
    | none => rw [hq] at hgo; cases hgo
    | some st₁ =>
      rw [hq] at hgo
      have hkeys : snapshotKeys ((h, cs) :: rest) =
          cs.map (fun c => stateKey h c.id) ++ snapshotKeys rest := by
        simp [snapshotKeys]
      rw [hkeys] at hfresh hnodup
      obtain ⟨hn₁, hn₂, hdisj⟩ := List.nodup_append.mp hnodup
      obtain ⟨hh₁, hd₁, hlook₁⟩ := goContainers_fresh cfg h cs st st₁
        (fun c hc => hfresh _ (by simp [List.mem_map.mpr ⟨c, hc, rfl⟩]))
        hn₁ hq
      have hfresh₂ : ∀ k ∈ snapshotKeys rest,
          lookupState st₁.containerStates k = none := by
        intro k hk
        rw [hlook₁ k (fun hmem => hdisj hmem hk)]
        exact hfresh k (by simp [hk])
      obtain ⟨hh₂, hd₂⟩ := ih st₁ st' hfresh₂ hn₂ hgo
      exact ⟨hh₂.trans hh₁, hd₂.trans hd₁⟩

/-- C1: starting from an empty tracked-state map, a snapshot with distinct
keys fires no alert (no alert on any entity's first-ever sighting); and
for any entity observed as running, then exited, then running across three
successive single-entity snapshots, exactly two alerts fire —
`ContainerStopped` then `ContainerStarted`, in that order. -/
theorem C1_state_transition_alerts :
    (∀ (cfg : AlertConfig) (st₀ st' : MonitorState) (snap : Snapshot),
      st₀.containerStates = [] → (snapshotKeys snap).Nodup →
      checkContainerStates cfg st₀ snap = some st' → st'.history = st₀.history) ∧
    (∀ (cfg : AlertConfig) (host id : String) (names : List String),
      12 ≤ id.length →
      ∃ nm, containerNameOf ⟨id, names, "running"⟩ = some nm ∧
      ((checkContainerStates cfg ⟨[], [], []⟩
          [(host, [⟨id, names, "running"⟩])]).bind (fun s₁ =>
        (checkContainerStates cfg s₁ [(host, [⟨id, names, "exited"⟩])]).bind (fun s₂ =>
          checkContainerStates cfg s₂ [(host, [⟨id, names, "running"⟩])]))).map
        (·.history) =
      some [⟨AlertType.containerStopped, id, nm, host, 0, 0⟩,
            ⟨AlertType.containerStarted, id, nm, host, 0, 0⟩]) := by
  constructor
  · intro cfg st₀ st' snap hempty hnodup hck
    rw [checkContainerStates] at hck
    cases hgo : goHosts cfg st₀ snap with
    | none => rw [hgo] at hck; cases hck
    | some st₁ =>
      rw [hgo] at hck
      cases hck
      exact (goHosts_fresh cfg snap st₀ st₁
        (fun k _ => by rw [hempty]; rfl) hnodup hgo).1
  · intro cfg host id names hlen
    obtain ⟨nm, hnm⟩ := containerNameOf_of_length ⟨id, names, "running"⟩ hlen
    have hnmE : containerNameOf ⟨id, names, "exited"⟩ = some nm := hnm
    refine ⟨nm, hnm, ?_⟩
    set key := stateKey host id with hkey
    set A₁ : Alert := ⟨AlertType.containerStopped, id, nm, host, 0, 0⟩ with hA₁
    set A₂ : Alert := ⟨AlertType.containerStarted, id, nm, host, 0, 0⟩ with hA₂
    -- first snapshot: first sighting, no alert
    have h₁ : checkContainerStates cfg ⟨[], [], []⟩ [(host, [⟨id, names, "running"⟩])] =
        some ⟨[(key, "running")], [], []⟩ := by
      rw [checkContainerStates_singleton,
        stepContainerState_unseen cfg host ⟨[], [], []⟩ ⟨id, names, "running"⟩ nm hnm rfl]
      simp [setState]
    -- second snapshot: running → exited fires ContainerStopped
    have h₂ : checkContainerStates cfg ⟨[(key, "running")], [], []⟩
        [(host, [⟨id, names, "exited"⟩])] =
        some ⟨[(key, "exited")], [A₁],
          (triggerAlert cfg ⟨[(key, "running")], [], []⟩ A₁).dispatched⟩ := by
      have hre : ("running" : String) ≠ "exited" := by decide
      rw [checkContainerStates_singleton,
        stepContainerState_stopped cfg host ⟨[(key, "running")], [], []⟩
          ⟨id, names, "exited"⟩ nm "running" hnmE (by simp [lookupState])
          hre (Or.inl rfl)]
      have hh := triggerAlert_history cfg ⟨[(key, "running")], [], []⟩ A₁
      simp only [Option.map]
      congr 1
      refine MonitorState.ext ?_ ?_ ?_
      · simp [setState]
      · simpa using hh
      · rfl
    -- third snapshot: exited → running fires ContainerStarted
    set st₂ : MonitorState := ⟨[(key, "exited")], [A₁],
      (triggerAlert cfg ⟨[(key, "running")], [], []⟩ A₁).dispatched⟩ with hst₂
    have h₃ : ∃ st₃, checkContainerStates cfg st₂
        [(host, [⟨id, names, "running"⟩])] = some st₃ ∧
        st₃.history = [A₁, A₂] := by
      have her : ("exited" : String) ≠ "running" := by decide
      rw [checkContainerStates_singleton,
        stepContainerState_started cfg host st₂ ⟨id, names, "running"⟩ nm "exited"
          hnm (by simp [hst₂, lookupState]) her rfl (Or.inl rfl)]
      refine ⟨_, rfl, ?_⟩
      have hh := triggerAlert_history cfg st₂ A₂
      simp [hh, hst₂]
    obtain ⟨st₃, hck₃, hh₃⟩ := h₃
    rw [h₁]
    show ((checkContainerStates cfg ⟨[(key, "running")], [], []⟩
        [(host, [⟨id, names, "exited"⟩])]).bind (fun s₂ =>
          checkContainerStates cfg s₂ [(host, [⟨id, names, "running"⟩])])).map
        (·.history) = some [A₁, A₂]
    rw [h₂]
    show (checkContainerStates cfg st₂
        [(host, [⟨id, names, "running"⟩])]).map (·.history) = some [A₁, A₂]
    rw [hck₃]
    simp [hh₃]

/-- Witness for C1: the concrete running → exited → running scenario for a
12-character container id. -/
theorem C1_state_transition_alerts_witness :
    ((checkContainerStates ⟨true, "", 80, 90, 30, "all"⟩ ⟨[], [], []⟩
        [("local", [⟨"abcdef123456", ["/web"], "running"⟩])]).bind (fun s₁ =>
      (checkContainerStates ⟨true, "", 80, 90, 30, "all"⟩ s₁
        [("local", [⟨"abcdef123456", ["/web"], "exited"⟩])]).bind (fun s₂ =>
        checkContainerStates ⟨true, "", 80, 90, 30, "all"⟩ s₂
          [("local", [⟨"abcdef123456", ["/web"], "running"⟩])]))).map
      (·.history) =
    some [⟨AlertType.containerStopped, "abcdef123456", "web", "local", 0, 0⟩,
          ⟨AlertType.containerStarted, "abcdef123456", "web", "local", 0, 0⟩] := by
  obtain ⟨nm, hnm, h⟩ := C1_state_transition_alerts.2 ⟨true, "", 80, 90, 30, "all"⟩
    "local" "abcdef123456" ["/web"] (by decide)
  have hweb : containerNameOf ⟨"abcdef123456", ["/web"], "running"⟩ = some "web" := by
    decide
  rw [hweb] at hnm
  injection hnm with hnm'
  rw [← hnm'] at h
  exact h

/-! ### Claim C6 -/

theorem setState_cons_ne (k v key val : String) (m : List (String × String))
    (h : k ≠ key) :
    setState ((k, v) :: m) key val = (k, v) :: setState m key val := by
  simp [setState, h]

theorem lookupState_cons_ne (k v key : String) (m : List (String × String))
    (h : k ≠ key) : lookupState ((k, v) :: m) key = lookupState m key := by
  simp [lookupState, h]

theorem lookupState_cons_pair_ne (p : String × String) (m : List (String × String))
    (key : String) (h : p.1 ≠ key) : lookupState (p :: m) key = lookupState m key := by
  simp [lookupState, h]

/-- The dispatched list after one `triggerAlert` call, as a function of the
configuration and the alert alone. -/
def dispatchedAfter (cfg : AlertConfig) (ds : List Alert) (a : Alert) : List Alert :=
  if cfg.webhookURL ≠ "" then
    if cfg.alertsFilter = "critical" ∧ ¬ isCriticalAlert a then ds else ds ++ [a]
  else ds

theorem triggerAlert_mk (cfg : AlertConfig) (sts : List (String × String))
    (hs ds : List Alert) (a : Alert) :
    triggerAlert cfg ⟨sts, hs, ds⟩ a = ⟨sts, hs ++ [a], dispatchedAfter cfg ds a⟩ := by
  simp only [triggerAlert, dispatchedAfter]
  split <;> (try split) <;> rfl

theorem lookupState_setState_isSome (m : List (String × String)) (k k' v : String)
    (h : (lookupState m k).isSome) :
    (lookupState (setState m k' v) k).isSome := by
  by_cases hk : k = k'
  · subst hk; simp [lookupState_setState_self]
  · rw [lookupState_setState_ne m k' k v hk]; exact h

theorem stepContainerState_states (cfg : AlertConfig) (host : String)
    (st st' : MonitorState) (c : ContainerInfo)
    (h : stepContainerState cfg host st c = some st') :
    st'.containerStates = setState st.containerStates (stateKey host c.id) c.state := by
  unfold stepContainerState at h
  cases hnm : containerNameOf c with
  | none => rw [hnm] at h; cases h
  | some nm =>
    rw [hnm] at h
    simp only at h
    cases hl : lookupState st.containerStates (stateKey host c.id) with
    | none =>
      simp only [hl] at h
      injection h with h'
      subst h'
      rfl
    | some prev =>
      simp only [hl] at h
      split_ifs at h <;>
        (injection h with h'; subst h'; simp [triggerAlert_containerStates])

theorem goContainers_states (cfg : AlertConfig) (host : String) :
    ∀ (cs : List ContainerInfo) (st st' : MonitorState),
      goContainers cfg host st cs = some st' →
      (∀ k, (lookupState st.containerStates k).isSome →
        (lookupState st'.containerStates k).isSome) ∧
      (∀ c ∈ cs, (lookupState st'.containerStates (stateKey host c.id)).isSome) := by
  intro cs
  induction cs with
  | nil =>
    intro st st' hgo
    simp only [goContainers] at hgo
    cases hgo
    exact ⟨fun _ h => h, by simp⟩
  | cons c cs ih =>
    intro st st' hgo
    rw [goContainers] at hgo
    cases hstep : stepContainerState cfg host st c with
    | none => rw [hstep] at hgo; cases hgo
    | some st₁ =>
      rw [hstep] at hgo
      have hstates := stepContainerState_states cfg host st st₁ c hstep
      obtain ⟨hmono, hcover⟩ := ih st₁ st' hgo
      have hmono' : ∀ k, (lookupState st.containerStates k).isSome →
          (lookupState st'.containerStates k).isSome := by
        intro k hk
        apply hmono
        rw [hstates]
        exact lookupState_setState_isSome _ _ _ _ hk
      refine ⟨hmono', ?_⟩
      intro d hd
      rcases List.mem_cons.mp hd with hd | hd
      · subst hd
        apply hmono
        rw [hstates]
        simp [lookupState_setState_self]
      · exact hcover d hd

theorem goHosts_states (cfg : AlertConfig) :
    ∀ (snap : Snapshot) (st st' : MonitorState),
      goHosts cfg st snap = some st' →
      (∀ k, (lookupState st.containerStates k).isSome →
        (lookupState st'.containerStates k).isSome) ∧
      (∀ k ∈ snapshotKeys snap, (lookupState st'.containerStates k).isSome) := by
  intro snap
  induction snap with
  | nil =>
    intro st st' hgo
    simp only [goHosts] at hgo
    cases hgo
    exact ⟨fun _ h => h, by simp [snapshotKeys]⟩
  | cons q rest ih =>
    intro st st' hgo
    obtain ⟨h, cs⟩ := q
    rw [goHosts] at hgo
    cases hq : goContainers cfg h st cs with
    | none => rw [hq] at hgo; cases hgo
    | some st₁ =>
      rw [hq] at hgo
      obtain ⟨hmono₁, hcover₁⟩ := goContainers_states cfg h cs st st₁ hq
      obtain ⟨hmono₂, hcover₂⟩ := ih st₁ st' hgo
      refine ⟨fun k hk => hmono₂ k (hmono₁ k hk), ?_⟩
      intro k hk
      rw [snapshotKeys, List.flatMap_cons] at hk
      rcases List.mem_append.mp hk with hk | hk
      · obtain ⟨c, hc, hkey⟩ := List.mem_map.mp hk
        subst hkey
        exact hmono₂ _ (hcover₁ c hc)
      · exact hcover₂ k hk

theorem lookupState_filter_isSome (ks : List String) :
    ∀ (m : List (String × String)) (k : String),
      (lookupState (m.filter (fun p => ks.contains p.1)) k).isSome → k ∈ ks := by
  intro m
  induction m with
  | nil => intro k h; simp [lookupState] at h
  | cons p m ih =>
    intro k h
    have hstep : (p :: m).filter (fun q => ks.contains q.1) =
        if ks.contains p.1 then p :: m.filter (fun q => ks.contains q.1)
        else m.filter (fun q => ks.contains q.1) := by
      simp [List.filter_cons]
    rw [hstep] at h
    by_cases hp : ks.contains p.1 = true
    · rw [if_pos hp] at h
      by_cases hpk : p.1 = k
      · subst hpk; exact List.elem_iff.mp hp
      · rw [lookupState_cons_pair_ne p _ _ hpk] at h
        exact ih k h
    · rw [if_neg hp] at h
      exact ih k h

theorem lookupState_filter_mem (ks : List String) :
    ∀ (m : List (String × String)) (k : String), k ∈ ks →
      lookupState (m.filter (fun p => ks.contains p.1)) k = lookupState m k := by
  intro m
  induction m with
  | nil => intro k _; rfl
  | cons p m ih =>
    intro k hk
    have hstep : (p :: m).filter (fun q => ks.contains q.1) =
        if ks.contains p.1 then p :: m.filter (fun q => ks.contains q.1)
        else m.filter (fun q => ks.contains q.1) := by
      simp [List.filter_cons]
    rw [hstep]
    by_cases hpk : p.1 = k
    · have hp : ks.contains p.1 = true := by rw [hpk]; exact List.elem_iff.mpr hk
      rw [if_pos hp]
      simp [lookupState, hpk, ih k hk]
    · by_cases hp : ks.contains p.1 = true
      · rw [if_pos hp, lookupState_cons_pair_ne p _ _ hpk,
          lookupState_cons_pair_ne p _ _ hpk]
        exact ih k hk
      · rw [if_neg hp, lookupState_cons_pair_ne p _ _ hpk]
        exact ih k hk

theorem checkContainerStates_keys (cfg : AlertConfig) (st st' : MonitorState)
    (snap : Snapshot) (hck : checkContainerStates cfg st snap = some st') (k : String) :
    (lookupState st'.containerStates k).isSome ↔ k ∈ snapshotKeys snap := by
  rw [checkContainerStates] at hck
  cases hgo : goHosts cfg st snap with
  | none => rw [hgo] at hck; cases hck
  | some st₁ =>
    rw [hgo] at hck
    injection hck with hck'
    subst hck'
    constructor
    · intro h
      exact lookupState_filter_isSome (snapshotKeys snap) st₁.containerStates k h
    · intro hk
      show (lookupState (st₁.containerStates.filter
        (fun p => (snapshotKeys snap).contains p.1)) k).isSome
      rw [lookupState_filter_mem (snapshotKeys snap) st₁.containerStates k hk]
      exact (goHosts_states cfg snap st st₁ hgo).2 k hk

theorem stepContainerState_cons_absent (cfg : AlertConfig) (host : String)
    (k v : String) (c : ContainerInfo) (hk : stateKey host c.id ≠ k) :
    ∀ st : MonitorState,
      stepContainerState cfg host
          { st with containerStates := (k, v) :: st.containerStates } c =
        (stepContainerState cfg host st c).map (fun st' =>
          { st' with containerStates := (k, v) :: st'.containerStates }) := by
  intro st
  obtain ⟨sts, hs, ds⟩ := st
  cases hnm : containerNameOf c with
  | none => simp [stepContainerState, hnm]
  | some nm =>
    simp only [stepContainerState, hnm]
    rw [lookupState_cons_ne k v (stateKey host c.id) sts (Ne.symm hk)]
    cases hl : lookupState sts (stateKey host c.id) with
    | none =>
      simp only [Option.map]
      rw [setState_cons_ne k v (stateKey host c.id) c.state sts (Ne.symm hk)]
    | some prev =>
      by_cases hne : prev ≠ c.state
      · by_cases hstop : c.state = "exited" ∨ c.state = "dead"
        · simp [hne, hstop, Option.map, triggerAlert_mk,
            setState_cons_ne k v (stateKey host c.id) c.state sts (Ne.symm hk)]
        · by_cases hstart : c.state = "running" ∧
              (prev = "exited" ∨ prev = "dead" ∨ prev = "created")
          · have hne' : ¬ prev = "running" := by rw [← hstart.1]; exact hne
            simp [hne, hne', hstop, hstart, Option.map, triggerAlert_mk,
              setState_cons_ne k v (stateKey host c.id) c.state sts (Ne.symm hk),
              setState_cons_ne k v (stateKey host c.id) "running" sts (Ne.symm hk)]
          · simp [hne, hstop, hstart, Option.map,
              setState_cons_ne k v (stateKey host c.id) c.state sts (Ne.symm hk)]
      · simp [hne, Option.map,
          setState_cons_ne k v (stateKey host c.id) c.state sts (Ne.symm hk)]

theorem goContainers_cons_absent (cfg : AlertConfig) (host : String) (k v : String) :
    ∀ (cs : List ContainerInfo), (∀ c ∈ cs, stateKey host c.id ≠ k) →
    ∀ st : MonitorState,
      goContainers cfg host
          { st with containerStates := (k, v) :: st.containerStates } cs =
        (goContainers cfg host st cs).map (fun st' =>
          { st' with containerStates := (k, v) :: st'.containerStates }) := by
  intro cs
  induction cs with
  | nil => intro _ st; rfl
  | cons c cs ih =>
    intro hks st
    rw [goContainers, goContainers,
      stepContainerState_cons_absent cfg host k v c (hks c (by simp)) st]
    cases hstep : stepContainerState cfg host st c with
    | none => rfl
    | some st₁ =>
      simp only [Option.map]
      exact ih (fun d hd => hks d (by simp [hd])) st₁

theorem goHosts_cons_absent (cfg : AlertConfig) (k v : String) :
    ∀ (snap : Snapshot), k ∉ snapshotKeys snap →
    ∀ st : MonitorState,
      goHosts cfg { st with containerStates := (k, v) :: st.containerStates } snap =
        (goHosts cfg st snap).map (fun st' =>
          { st' with containerStates := (k, v) :: st'.containerStates }) := by
  intro snap
  induction snap with
  | nil => intro _ st; rfl
  | cons q rest ih =>
    intro hk st
    obtain ⟨h, cs⟩ := q
    have hkeys : ∀ c ∈ cs, stateKey h c.id ≠ k := by
      intro c hc hcontra
      apply hk
      rw [snapshotKeys, List.flatMap_cons]
      exact List.mem_append.mpr (Or.inl (hcontra ▸ List.mem_map.mpr ⟨c, hc, rfl⟩))
    have hrest : k ∉ snapshotKeys rest := by
      intro hcontra
      apply hk
      rw [snapshotKeys, List.flatMap_cons]
      exact List.mem_append.mpr (Or.inr hcontra)
    rw [goHosts, goHosts, goContainers_cons_absent cfg h k v cs hkeys st]
    cases hq : goContainers cfg h st cs with
    | none => rfl
    | some st₁ =>
      simp only [Option.map]
      exact ih hrest st₁

theorem checkContainerStates_cons_absent (cfg : AlertConfig) (st : MonitorState)
    (snap : Snapshot) (k v : String) (hk : k ∉ snapshotKeys snap) :
    checkContainerStates cfg
        { st with containerStates := (k, v) :: st.containerStates } snap =
      checkContainerStates cfg st snap := by
  unfold checkContainerStates
  rw [goHosts_cons_absent cfg k v snap hk st]
  cases hgo : goHosts cfg st snap with
  | none => rfl
  | some st₁ =>
    simp only [Option.map]
    congr 1
    refine MonitorState.ext ?_ rfl rfl
    show ((k, v) :: st₁.containerStates).filter
        (fun p => (snapshotKeys snap).contains p.1) = _
    have hkf : ((snapshotKeys snap).contains k) = false := by
      rw [← Bool.not_eq_true]
      intro hcontra
      exact hk (List.elem_iff.mp hcontra)
    simp [List.filter_cons, hkf, hk]

/-- C6: after a fully processed snapshot, a tracked-state entry exists for
a key exactly when that key occurs in the snapshot; a tracked entry whose
key is absent from the snapshot is dropped and its presence has no effect
on the check's outcome (no alert on disappearance); and an entity that
disappears and later reappears is treated as unseen — the disappearance
and the reappearance both fire no alert, whatever the states involved. -/
theorem C6_tracked_state_lifecycle :
    (∀ (cfg : AlertConfig) (st st' : MonitorState) (snap : Snapshot) (k : String),
      checkContainerStates cfg st snap = some st' →
      ((lookupState st'.containerStates k).isSome ↔ k ∈ snapshotKeys snap)) ∧
    (∀ (cfg : AlertConfig) (st : MonitorState) (snap : Snapshot) (k v : String),
      k ∉ snapshotKeys snap →
      checkContainerStates cfg
          { st with containerStates := (k, v) :: st.containerStates } snap =
        checkContainerStates cfg st snap) ∧
    (∀ (cfg : AlertConfig) (host id : String) (names : List String) (s₀ s₁ : String),
      12 ≤ id.length →
      ∃ nm, containerNameOf ⟨id, names, s₁⟩ = some nm ∧
        checkContainerStates cfg ⟨[(stateKey host id, s₀)], [], []⟩ [] =
          some ⟨[], [], []⟩ ∧
        ((checkContainerStates cfg ⟨[(stateKey host id, s₀)], [], []⟩ []).bind
          (fun s => checkContainerStates cfg s [(host, [⟨id, names, s₁⟩])])).map
          (·.history) = some []) := by
  refine ⟨fun cfg st st' snap k hck => checkContainerStates_keys cfg st st' snap hck k,
    checkContainerStates_cons_absent, ?_⟩
  intro cfg host id names s₀ s₁ hlen
  obtain ⟨nm, hnm⟩ := containerNameOf_of_length ⟨id, names, s₁⟩ hlen
  have hgone : checkContainerStates cfg ⟨[(stateKey host id, s₀)], [], []⟩ [] =
      some ⟨[], [], []⟩ := by
    simp [checkContainerStates, goHosts, snapshotKeys, List.filter]
  refine ⟨nm, hnm, hgone, ?_⟩
  rw [hgone]
  show (checkContainerStates cfg ⟨[], [], []⟩
    [(host, [⟨id, names, s₁⟩])]).map (·.history) = some []
  rw [checkContainerStates_singleton,
    stepContainerState_unseen cfg host ⟨[], [], []⟩ ⟨id, names, s₁⟩ nm hnm rfl]
  rfl

/-- Witness for C6: a concrete entity present, then absent, then
reappearing, with the tracked entry present exactly while the entity is in
the snapshot and no alert at any point. -/
theorem C6_tracked_state_lifecycle_witness :
    checkContainerStates ⟨true, "", 80, 90, 30, "all"⟩
        ⟨[("local:abcdef123456", "running")], [], []⟩ [] = some ⟨[], [], []⟩ ∧
    checkContainerStates ⟨true, "", 80, 90, 30, "all"⟩
        ⟨[("local:abcdef123456", "running")], [], []⟩
        [("other", [⟨"abcdef123456", [], "running"⟩])] =
      checkContainerStates ⟨true, "", 80, 90, 30, "all"⟩ ⟨[], [], []⟩
        [("other", [⟨"abcdef123456", [], "running"⟩])] := by
  constructor
  · obtain ⟨nm, hnm, hgone, _⟩ := C6_tracked_state_lifecycle.2.2
      ⟨true, "", 80, 90, 30, "all"⟩ "local" "abcdef123456" [] "running" "exited"
      (by decide)
    exact hgone
  · have h := C6_tracked_state_lifecycle.2.1 ⟨true, "", 80, 90, 30, "all"⟩
      ⟨[], [], []⟩ [("other", [⟨"abcdef123456", [], "running"⟩])]
      "local:abcdef123456" "running" (by decide)
    exact h

/-! ### Claim C3 -/

/-- The data point recorded for a `ContainerStats` sample. -/
def toDataPoint (s : ContainerStats) : DataPoint :=
  ⟨s.cpuPercent, s.memoryPercent, s.timestamp⟩

/-- One `RecordStats` append-then-evict step on a container's buffer. -/
def recordOne (hist : ContainerHistory) (dp : DataPoint) : ContainerHistory :=
  let dps := hist.dataPoints ++ [dp]
  ⟨if dps.length > hist.maxSize then dps.drop 1 else dps, hist.maxSize⟩

/-- Folding `recordOne` over a list of data points. -/
def recordList (hist : ContainerHistory) (dps : List DataPoint) : ContainerHistory :=
  dps.foldl recordOne hist

/-- A sequence of `RecordStats` calls, in order. -/
def recordSeq (hm : HistoryManager) (l : List (String × ContainerStats)) :
    HistoryManager :=
  l.foldl (fun h p => recordStats h p.1 p.2) hm

/-- The data points of the samples recorded for one container, in order. -/
def samplesFor (cid : String) (l : List (String × ContainerStats)) : List DataPoint :=
  (l.filter (fun p => p.1 == cid)).map (fun p => toDataPoint p.2)

/-- Keep only the most recent `cap` entries (drop the oldest first). -/
def dropToFit (cap : Nat) (l : List DataPoint) : List DataPoint :=
  l.drop (l.length - cap)

theorem lookupEntry_setEntry_self (m : List (String × ContainerHistory))
    (cid : String) (h : ContainerHistory) :
    lookupEntry (setEntry m cid h) cid = some h := by
  induction m with
  | nil => simp [setEntry, lookupEntry]
  | cons p m ih =>
    by_cases hp : p.1 = cid
    · simp [setEntry, lookupEntry, hp]
    · simp [setEntry, lookupEntry, hp, ih]

theorem lookupEntry_setEntry_ne (m : List (String × ContainerHistory))
    (cid cid' : String) (h : ContainerHistory) (hne : cid' ≠ cid) :
    lookupEntry (setEntry m cid h) cid' = lookupEntry m cid' := by
  induction m with
  | nil => simp [setEntry, lookupEntry, Ne.symm hne]
  | cons p m ih =>
    by_cases hp : p.1 = cid
    · simp [setEntry, lookupEntry, hp, Ne.symm hne]
    · by_cases hp' : p.1 = cid'
      · simp [setEntry, lookupEntry, hp, hp', hne]
      · simp [setEntry, lookupEntry, hp, hp', ih]

theorem recordStats_lookup_self (hm : HistoryManager) (cid : String)
    (s : ContainerStats) :
    lookupContainer (recordStats hm cid s) cid =
      some (recordOne ((lookupContainer hm cid).getD ⟨[], hm.maxSize⟩)
        (toDataPoint s)) := by
  cases hl : lookupEntry hm.containers cid <;>
    simp [recordStats, recordOne, toDataPoint, lookupContainer, setContainer, hl,
      lookupEntry_setEntry_self]

theorem recordStats_lookup_ne (hm : HistoryManager) (cid cid' : String)
    (s : ContainerStats) (h : cid' ≠ cid) :
    lookupContainer (recordStats hm cid s) cid' = lookupContainer hm cid' := by
  cases hl : lookupEntry hm.containers cid <;>
    simp [recordStats, lookupContainer, setContainer, hl,
      lookupEntry_setEntry_ne _ _ _ _ h]

theorem recordStats_maxSize (hm : HistoryManager) (cid : String) (s : ContainerStats) :
    (recordStats hm cid s).maxSize = hm.maxSize := rfl

theorem recordSeq_lookup (cid : String) :
    ∀ (l : List (String × ContainerStats)) (hm : HistoryManager),
      lookupContainer (recordSeq hm l) cid =
        match lookupContainer hm cid, samplesFor cid l with
        | none, [] => none
        | none, dps => some (recordList ⟨[], hm.maxSize⟩ dps)
        | some h, dps => some (recordList h dps) := by
  intro l
  induction l with
  | nil =>
    intro hm
    cases hl : lookupContainer hm cid <;> simp [recordSeq, samplesFor, recordList, hl]
  | cons p l ih =>
    intro hm
    obtain ⟨c, s⟩ := p
    have hseq : recordSeq hm ((c, s) :: l) = recordSeq (recordStats hm c s) l := rfl
    rw [hseq, ih (recordStats hm c s)]
    by_cases hc : c = cid
    · subst hc
      have hsf : samplesFor c ((c, s) :: l) = toDataPoint s :: samplesFor c l := by
        simp [samplesFor, List.filter_cons]
      rw [hsf, recordStats_lookup_self hm c s, recordStats_maxSize]
      cases hl : lookupContainer hm c with
      | none =>
        simp only [hl, Option.getD]
        cases hsl : samplesFor c l <;> simp [recordList]
      | some h =>
        simp only [hl, Option.getD]
        cases hsl : samplesFor c l <;> simp [recordList]
    · have hsf : samplesFor cid ((c, s) :: l) = samplesFor cid l := by
        simp [samplesFor, List.filter_cons, hc]
      rw [hsf, recordStats_lookup_ne hm c cid s (Ne.symm hc), recordStats_maxSize]

theorem recordOne_dropToFit (cap : Nat) (hcap : 0 < cap) (m : List DataPoint)
    (dp : DataPoint) :
    recordOne ⟨dropToFit cap m, cap⟩ dp = ⟨dropToFit cap (m ++ [dp]), cap⟩ := by
  by_cases hlen : m.length < cap
  · have h1 : dropToFit cap m = m := by
      simp [dropToFit, Nat.sub_eq_zero_of_le (Nat.le_of_lt hlen)]
    have h2 : dropToFit cap (m ++ [dp]) = m ++ [dp] := by
      simp only [dropToFit, List.length_append, List.length_cons, List.length_nil]
      rw [Nat.sub_eq_zero_of_le (by omega)]
      rfl
    rw [h1, h2]
    simp only [recordOne]
    rw [if_neg (by
      simp only [List.length_append, List.length_cons, List.length_nil]
      omega)]
  · have hge : cap ≤ m.length := Nat.le_of_not_lt hlen
    have hlendrop : (dropToFit cap m).length = cap := by
      simp only [dropToFit, List.length_drop]
      omega
    have hkey : (dropToFit cap m ++ [dp]).drop 1 = dropToFit cap (m ++ [dp]) := by
      rw [List.drop_append_of_le_length (by omega)]
      simp only [dropToFit, List.drop_drop]
      rw [List.drop_append_of_le_length (by
        simp only [List.length_append, List.length_cons, List.length_nil]
        omega)]
      congr 2
      simp only [List.length_append, List.length_cons, List.length_nil]
      omega
    simp only [recordOne]
    rw [if_pos (by
      simp only [List.length_append, List.length_cons, List.length_nil, hlendrop]
      omega)]
    rw [hkey]

theorem recordList_dropToFit (cap : Nat) (hcap : 0 < cap) :
    ∀ (l m : List DataPoint),
      recordList ⟨dropToFit cap m, cap⟩ l = ⟨dropToFit cap (m ++ l), cap⟩ := by
  intro l
  induction l with
  | nil => intro m; simp [recordList]
  | cons dp l ih =>
    intro m
    have hstep : recordList ⟨dropToFit cap m, cap⟩ (dp :: l) =
        recordList (recordOne ⟨dropToFit cap m, cap⟩ dp) l := rfl
    rw [hstep, recordOne_dropToFit cap hcap m dp, ih (m ++ [dp])]
    simp

theorem getAverages_all_included (hm : HistoryManager) (cid : String)
    (hist : ContainerHistory) (dur now : ℤ)
    (hl : lookupContainer hm cid = some hist) (hne : hist.dataPoints ≠ [])
    (hin : ∀ dp ∈ hist.dataPoints, now - dur ≤ dp.timestamp) :
    getAverages hm cid dur now =
      ((hist.dataPoints.map (·.cpuPercent)).sum / hist.dataPoints.length,
       (hist.dataPoints.map (·.memoryPercent)).sum / hist.dataPoints.length, true) := by
  have htake : hist.dataPoints.reverse.takeWhile
      (fun dp => decide (now - dur ≤ dp.timestamp)) = hist.dataPoints.reverse := by
    apply List.takeWhile_eq_self_iff.mpr
    intro dp hdp
    simp only [decide_eq_true_eq]
    exact hin dp (List.mem_reverse.mp hdp)
  simp only [getAverages, hl, if_neg hne, htake]
  rw [if_neg (by simpa using hne)]
  simp [List.map_reverse, List.sum_reverse]

set_option maxRecDepth 4000 in
/-- C3: recording any interleaved sequence of samples from a fresh manager
leaves each container holding exactly the most recent 720 of its own
samples (oldest dropped first, lazily created on its first sample), so the
buffer never exceeds 720 entries; and a windowed average whose window
covers every retained sample returns exactly the means of those retained
samples. -/
theorem C3_bounded_history :
    (∀ (l : List (String × ContainerStats)) (cid : String),
      (lookupContainer (recordSeq newHistoryManager l) cid).map (·.dataPoints) =
        if samplesFor cid l = [] then none
        else some (dropToFit 720 (samplesFor cid l))) ∧
    (∀ (l : List (String × ContainerStats)) (cid : String) (hist : ContainerHistory),
      lookupContainer (recordSeq newHistoryManager l) cid = some hist →
      hist.dataPoints.length ≤ 720) ∧
    (∀ (l : List (String × ContainerStats)) (cid : String) (dur now : ℤ),
      samplesFor cid l ≠ [] →
      (∀ dp ∈ dropToFit 720 (samplesFor cid l), now - dur ≤ dp.timestamp) →
      getAverages (recordSeq newHistoryManager l) cid dur now =
        (((dropToFit 720 (samplesFor cid l)).map (·.cpuPercent)).sum /
            (dropToFit 720 (samplesFor cid l)).length,
         ((dropToFit 720 (samplesFor cid l)).map (·.memoryPercent)).sum /
            (dropToFit 720 (samplesFor cid l)).length, true)) := by
  have hmain : ∀ (l : List (String × ContainerStats)) (cid : String),
      lookupContainer (recordSeq newHistoryManager l) cid =
        if samplesFor cid l = [] then none
        else some ⟨dropToFit 720 (samplesFor cid l), 720⟩ := by
    intro l cid
    rw [recordSeq_lookup cid l newHistoryManager]
    have hl : lookupContainer newHistoryManager cid = none := rfl
    rw [hl]
    cases hsl : samplesFor cid l with
    | nil => simp
    | cons dp dps =>
      have : recordList ⟨[], newHistoryManager.maxSize⟩ (dp :: dps) =
          ⟨dropToFit 720 (dp :: dps), 720⟩ := by
        have h0 : (⟨[], newHistoryManager.maxSize⟩ : ContainerHistory) =
            ⟨dropToFit 720 [], 720⟩ := rfl
        rw [h0, recordList_dropToFit 720 (by omega) (dp :: dps) []]
        rfl
      simp [this]
  refine ⟨?_, ?_, ?_⟩
  · intro l cid
    rw [hmain l cid]
    by_cases hsl : samplesFor cid l = [] <;> simp [hsl]
  · intro l cid hist hl
    rw [hmain l cid] at hl
    by_cases hsl : samplesFor cid l = []
    · rw [if_pos hsl] at hl; cases hl
    · rw [if_neg hsl] at hl
      injection hl with hl'
      subst hl'
      simp only [dropToFit, List.length_drop]
      omega
  · intro l cid dur now hne hin
    have hl := hmain l cid
    rw [if_neg hne] at hl
    apply getAverages_all_included _ _ _ _ _ hl
    · show dropToFit 720 (samplesFor cid l) ≠ []
      intro hcontra
      apply hne
      have := congrArg List.length hcontra
      simp only [dropToFit, List.length_drop, List.length_nil] at this
      have hz : (samplesFor cid l).length = 0 := by omega
      exact List.eq_nil_of_length_eq_zero hz
    · exact hin

/-- Witness for C3: one recorded sample; the buffer holds exactly it and
the unbounded average is its values with hasData. -/
theorem C3_bounded_history_witness :
    (lookupContainer (recordSeq newHistoryManager [("web1", ⟨50, 60, 100⟩)])
        "web1").map (·.dataPoints) =
      some (dropToFit 720 (samplesFor "web1" [("web1", ⟨50, 60, 100⟩)])) ∧
    getAverages (recordSeq newHistoryManager [("web1", ⟨50, 60, 100⟩)])
        "web1" 1000 100 =
      (((dropToFit 720 (samplesFor "web1" [("web1", ⟨50, 60, 100⟩)])).map
          (·.cpuPercent)).sum /
        (dropToFit 720 (samplesFor "web1" [("web1", ⟨50, 60, 100⟩)])).length,
       ((dropToFit 720 (samplesFor "web1" [("web1", ⟨50, 60, 100⟩)])).map
          (·.memoryPercent)).sum /
        (dropToFit 720 (samplesFor "web1" [("web1", ⟨50, 60, 100⟩)])).length,
       true) := by
  constructor
  · have h := C3_bounded_history.1 [("web1", ⟨50, 60, 100⟩)] "web1"
    rw [h]
    rw [if_neg (by decide)]
  · exact C3_bounded_history.2.2 [("web1", ⟨50, 60, 100⟩)] "web1" 1000 100
      (by decide) (by decide)

/-! ### Claim C9 -/

/-- A manager holding out-of-order samples for container `c`: an in-window
sample (timestamp 500) stored before an out-of-window one (timestamp 100). -/
def c9Manager : HistoryManager :=
  recordSeq newHistoryManager [("c", ⟨100, 0, 500⟩), ("c", ⟨0, 0, 100⟩)]

/-- C9: `GetAverages` averages exactly the maximal suffix of the stored
sequence whose timestamps all lie at or after the cutoff — the
most-recent-first scan stops permanently at the first stored sample
strictly before the cutoff — and concretely, an in-window sample stored
before an out-of-window one is excluded (`hasData = false` even though an
in-window sample exists). -/
theorem C9_suffix_scan :
    (∀ (hm : HistoryManager) (cid : String) (hist : ContainerHistory) (dur now : ℤ),
      lookupContainer hm cid = some hist → hist.dataPoints ≠ [] →
      ∃ pre suf, hist.dataPoints = pre ++ suf ∧
        (∀ dp ∈ suf, now - dur ≤ dp.timestamp) ∧
        (∀ dp, pre.getLast? = some dp → dp.timestamp < now - dur) ∧
        getAverages hm cid dur now =
          (if suf.length = 0 then (0, 0, false)
           else ((suf.map (·.cpuPercent)).sum / suf.length,
                 (suf.map (·.memoryPercent)).sum / suf.length, true))) ∧
    (getAverages c9Manager "c" 300 600 = (0, 0, false) ∧
      (lookupContainer c9Manager "c").map (·.dataPoints) =
        some [⟨100, 0, 500⟩, ⟨0, 0, 100⟩] ∧
      (600 : ℤ) - 300 ≤ 500) := by
  constructor
  · intro hm cid hist dur now hl hne
    refine ⟨(hist.dataPoints.reverse.dropWhile
        (fun dp => decide (now - dur ≤ dp.timestamp))).reverse,
      (hist.dataPoints.reverse.takeWhile
        (fun dp => decide (now - dur ≤ dp.timestamp))).reverse, ?_, ?_, ?_, ?_⟩
    · have h := List.takeWhile_append_dropWhile
        (fun dp => decide (now - dur ≤ dp.timestamp)) hist.dataPoints.reverse
      have h2 := congrArg List.reverse h
      rw [List.reverse_append, List.reverse_reverse] at h2
      exact h2.symm
    · intro dp hdp
      have hmem := List.mem_reverse.mp hdp
      have := List.mem_takeWhile_imp hmem
      simpa using this
    · intro dp hdp
      rw [List.getLast?_reverse] at hdp
      have h := List.head?_dropWhile_not
        (fun dp => decide (now - dur ≤ dp.timestamp)) hist.dataPoints.reverse
      rw [hdp] at h
      simp only [decide_eq_false_iff_not, not_le] at h
      exact h
    · simp only [getAverages, hl, if_neg hne]
      rw [List.length_reverse, List.map_reverse, List.map_reverse,
        List.sum_reverse, List.sum_reverse]
  · refine ⟨?_, ?_, by norm_num⟩
    · norm_num [c9Manager, recordSeq, recordStats, newHistoryManager, lookupContainer,
        lookupEntry, setContainer, setEntry, toDataPoint, getAverages, List.takeWhile]
    · norm_num [c9Manager, recordSeq, recordStats, newHistoryManager, lookupContainer,
        lookupEntry, setContainer, setEntry, toDataPoint]

/-! ### Claim C5 -/

theorem takeWhile_reverse_eq_nil_iff (l : List DataPoint) (cutoff : ℤ)
    (hsort : l.Pairwise (fun a b => a.timestamp ≤ b.timestamp)) (hne : l ≠ []) :
    (l.reverse.takeWhile (fun dp => decide (cutoff ≤ dp.timestamp)) = [] ↔
      ∀ dp ∈ l, dp.timestamp < cutoff) := by
  obtain ⟨x, xs, hrev⟩ : ∃ x xs, l.reverse = x :: xs := by
    cases hr : l.reverse with
    | nil =>
      have : l = [] := by simpa using congrArg List.reverse hr
      exact absurd this hne
    | cons x xs => exact ⟨x, xs, rfl⟩
  have hxl : x ∈ l := by
    have : x ∈ l.reverse := by rw [hrev]; simp
    exact List.mem_reverse.mp this
  have hmax : ∀ dp ∈ l, dp.timestamp ≤ x.timestamp := by
    have hp : l.reverse.Pairwise (fun a b => b.timestamp ≤ a.timestamp) :=
      List.pairwise_reverse.mpr hsort
    rw [hrev] at hp
    intro dp hdp
    have hdp' : dp ∈ l.reverse := List.mem_reverse.mpr hdp
    rw [hrev] at hdp'
    rcases List.mem_cons.mp hdp' with h | h
    · subst h; exact le_refl _
    · exact (List.pairwise_cons.mp hp).1 dp h
  rw [hrev, List.takeWhile_cons]
  by_cases hx : cutoff ≤ x.timestamp
  · rw [if_pos (by simpa using hx)]
    constructor
    · intro h; cases h
    · intro h
      exact absurd hx (not_le.mpr (h x hxl))
  · rw [if_neg (by simpa using hx)]
    constructor
    · intro _ dp hdp
      have h1 := hmax dp hdp
      have h2 := lt_of_not_le hx
      omega
    · intro _; rfl

/-- C5: under the data model's non-decreasing-timestamps assumption,
`GetAverages` reports `hasData = false` exactly when the container is
unknown, has no samples, or every sample is strictly older than the
window; an in-window sample forces `hasData = true` whatever the values,
and an all-zero in-window sample yields `(0, 0, true)`, distinguishing
"no sample in window" from "average is zero". -/
theorem C5_hasData_semantics :
    (∀ (hm : HistoryManager) (cid : String) (dur now : ℤ),
      (∀ hist, lookupContainer hm cid = some hist →
        hist.dataPoints.Pairwise (fun a b => a.timestamp ≤ b.timestamp)) →
      ((getAverages hm cid dur now).2.2 = false ↔
        lookupContainer hm cid = none ∨
        ∃ hist, lookupContainer hm cid = some hist ∧
          (hist.dataPoints = [] ∨
            ∀ dp ∈ hist.dataPoints, dp.timestamp < now - dur))) ∧
    (∀ (hm : HistoryManager) (cid : String) (hist : ContainerHistory) (dur now : ℤ),
      lookupContainer hm cid = some hist →
      hist.dataPoints.Pairwise (fun a b => a.timestamp ≤ b.timestamp) →
      (∃ dp ∈ hist.dataPoints, now - dur ≤ dp.timestamp) →
      (getAverages hm cid dur now).2.2 = true) ∧
    getAverages (recordSeq newHistoryManager [("z", ⟨0, 0, 100⟩)]) "z" 50 100 =
      (0, 0, true) := by
  refine ⟨?_, ?_, ?_⟩
  · intro hm cid dur now hsorted
    cases hl : lookupContainer hm cid with
    | none => simp [getAverages, hl]
    | some hist =>
      have hs := hsorted hist hl
      by_cases hne : hist.dataPoints = []
      · simp [getAverages, hl, hne]
      · have hiff := takeWhile_reverse_eq_nil_iff hist.dataPoints (now - dur) hs hne
        simp only [getAverages, hl, if_neg hne]
        by_cases hall : hist.dataPoints.reverse.takeWhile
            (fun dp => decide (now - dur ≤ dp.timestamp)) = []
        · rw [if_pos (by rw [hall]; rfl)]
          exact iff_of_true rfl (Or.inr ⟨hist, rfl, Or.inr (hiff.mp hall)⟩)
        · rw [if_neg (fun hlen0 => hall (List.length_eq_zero.mp hlen0))]
          refine iff_of_false (by simp) ?_
          rintro (h | ⟨hist', hl', h⟩)
          · exact Option.noConfusion h
          · injection hl' with he
            subst he
            rcases h with h | h
            · exact hne h
            · exact hall (hiff.mpr h)
  · rintro hm cid hist dur now hl hs ⟨dp, hdp, hts⟩
    have hne : hist.dataPoints ≠ [] := List.ne_nil_of_mem hdp
    have hiff := takeWhile_reverse_eq_nil_iff hist.dataPoints (now - dur) hs hne
    simp only [getAverages, hl, if_neg hne]
    rw [if_neg ?hc]
    case hc =>
      intro hlen0
      have h0 : hist.dataPoints.reverse.takeWhile
          (fun dp => decide (now - dur ≤ dp.timestamp)) = [] :=
        List.length_eq_zero.mp hlen0
      exact absurd hts (not_le.mpr (hiff.mp h0 dp hdp))
  · norm_num [recordSeq, recordStats, newHistoryManager, lookupContainer,
      lookupEntry, setContainer, setEntry, toDataPoint, getAverages,
      List.takeWhile, List.cons_ne_nil]

/-- Witness for C5: one all-zero in-window sample reports
`hasData = true`. -/
theorem C5_hasData_semantics_witness :
    (getAverages (recordSeq newHistoryManager [("z", ⟨0, 0, 100⟩)]) "z" 50 100).2.2 =
      true := by
  apply C5_hasData_semantics.2.1 (recordSeq newHistoryManager [("z", ⟨0, 0, 100⟩)])
    "z" ⟨[⟨0, 0, 100⟩], 720⟩ 50 100
  · rfl
  · simp
  · exact ⟨⟨0, 0, 100⟩, by simp, by norm_num⟩

/-- Witness for C9: the suffix decomposition applied to the out-of-order
manager's stored sequence. -/
theorem C9_suffix_scan_witness :
    ∃ pre suf, ([⟨100, 0, 500⟩, ⟨0, 0, 100⟩] : List DataPoint) = pre ++ suf ∧
      (∀ dp ∈ suf, (600 : ℤ) - 300 ≤ dp.timestamp) ∧
      (∀ dp, pre.getLast? = some dp → dp.timestamp < (600 : ℤ) - 300) ∧
      getAverages c9Manager "c" 300 600 =
        (if suf.length = 0 then (0, 0, false)
         else ((suf.map (·.cpuPercent)).sum / suf.length,
               (suf.map (·.memoryPercent)).sum / suf.length, true)) := by
  have hl : lookupContainer c9Manager "c" =
      some ⟨[⟨100, 0, 500⟩, ⟨0, 0, 100⟩], 720⟩ := rfl
  have h := C9_suffix_scan.1 c9Manager "c" ⟨[⟨100, 0, 500⟩, ⟨0, 0, 100⟩], 720⟩
    300 600 hl (by simp)
  exact h

end VpsMonitor
